import Mathlib

/-!
Verification of the speakit core: word tokenizer, playback controller state
machine, guest bookmark/history storage, upload validation and the progress
computation, shallowly embedded from the TypeScript sources
(`src/components/TTSReader.tsx`, `src/components/ContentInput.tsx`,
`src/pages/Index.tsx` together with the guest-storage hook).

Strings are modelled as `List Char`; the JS whitespace class is kept abstract
as a predicate `isWs : Char → Bool`.
-/

namespace Speakit

/-- Tokenizer (TTSReader.tsx, `const words = content.split(/\s+/).filter(word => word.length > 0)`).
Splitting at whitespace characters and dropping the empty fragments leaves the
maximal non-whitespace runs; `List.splitOnP isWs` splits at every character
satisfying `isWs`, and the filter removes the empty pieces produced at run
boundaries, which is extensionally the behaviour of the regex split `\s+`
followed by the same filter. -/
def words (isWs : Char → Bool) (l : List Char) : List (List Char) :=
  (l.splitOnP isWs).filter (fun w => decide (0 < w.length))

/-- Every fragment returned by `List.splitOnP` contains no separator character. -/
theorem splitOnP_chars (isWs : Char → Bool) (l : List Char) :
    ∀ w ∈ l.splitOnP isWs, ∀ c ∈ w, isWs c = false := by
  induction l with
  | nil =>
    intro w hw c hc
    rw [List.splitOnP_nil] at hw
    simp only [List.mem_singleton] at hw
    subst hw
    exact absurd hc (List.not_mem_nil c)
  | cons x xs ih =>
    intro w hw c hc
    rw [List.splitOnP_cons] at hw
    by_cases hx : isWs x
    · rw [if_pos hx] at hw
      rcases List.mem_cons.mp hw with h | h
      · subst h; exact absurd hc (List.not_mem_nil c)
      · exact ih w h c hc
    · rw [if_neg hx] at hw
      obtain ⟨v, vs, hsplit⟩ := List.exists_cons_of_ne_nil (List.splitOnP_ne_nil isWs xs)
      rw [hsplit, List.modifyHead_cons] at hw
      rcases List.mem_cons.mp hw with h | h
      · subst h
        rcases List.mem_cons.mp hc with h | h
        · subst h; exact Bool.eq_false_iff.mpr hx
        · exact ih v (hsplit ▸ List.mem_cons_self v vs) c h
      · exact ih w (hsplit ▸ List.mem_cons_of_mem v h) c hc

/-- On input with no whitespace at all, `splitOnP` returns the single fragment. -/
theorem splitOnP_of_all_nonWs (isWs : Char → Bool) (w : List Char)
    (h : ∀ c ∈ w, isWs c = false) : w.splitOnP isWs = [w] := by
  induction w with
  | nil => exact List.splitOnP_nil isWs
  | cons x xs ih =>
    rw [List.splitOnP_cons, if_neg (by simp [h x (List.mem_cons_self x xs)])]
    rw [ih (fun c hc => h c (List.mem_cons_of_mem x hc)), List.modifyHead_cons]

/-- Splitting a whitespace-free word followed by a separator peels off the word. -/
theorem splitOnP_append_sep (isWs : Char → Bool) (w rest : List Char) (sep : Char)
    (hw : ∀ c ∈ w, isWs c = false) (hsep : isWs sep = true) :
    (w ++ sep :: rest).splitOnP isWs = w :: rest.splitOnP isWs := by
  induction w with
  | nil => rw [List.nil_append, List.splitOnP_cons, if_pos hsep]
  | cons x xs ih =>
    rw [List.cons_append, List.splitOnP_cons,
      if_neg (by simp [hw x (List.mem_cons_self x xs)]),
      ih (fun c hc => hw c (List.mem_cons_of_mem x hc)), List.modifyHead_cons]

theorem intercalate_nil_words (sep : List Char) : sep.intercalate ([] : List (List Char)) = [] := rfl

theorem intercalate_single (sep : List Char) (w : List Char) : sep.intercalate [w] = w := by
  simp [List.intercalate, List.intersperse]

theorem intercalate_cons_cons (sep a b : List Char) (t : List (List Char)) :
    sep.intercalate (a :: b :: t) = a ++ sep ++ sep.intercalate (b :: t) := by
  simp [List.intercalate, List.intersperse, List.append_assoc]

/-- The tokenizer returns only non-empty fragments. -/
theorem words_no_empty (isWs : Char → Bool) (l : List Char) :
    ∀ w ∈ words isWs l, w ≠ [] := by
  intro w hw
  have := (List.mem_filter.mp hw).2
  intro hnil
  subst hnil
  simp at this

/-- Every character of every token is non-whitespace. -/
theorem words_chars (isWs : Char → Bool) (l : List Char) :
    ∀ w ∈ words isWs l, ∀ c ∈ w, isWs c = false := by
  intro w hw
  exact splitOnP_chars isWs l w (List.mem_filter.mp hw).1

/-- The tokenizer of the empty input is the empty sequence. -/
theorem words_nil (isWs : Char → Bool) : words isWs [] = [] := by
  rw [words, List.splitOnP_nil]
  rfl

/-- Tokenizing a single-space-joined list of non-empty whitespace-free words
returns that list unchanged. -/
theorem words_intercalate (isWs : Char → Bool) (sep : Char) (hsep : isWs sep = true)
    (ws : List (List Char)) (hne : ∀ w ∈ ws, w ≠ [])
    (hchars : ∀ w ∈ ws, ∀ c ∈ w, isWs c = false) :
    words isWs (List.intercalate [sep] ws) = ws := by
  induction ws with
  | nil => exact words_nil isWs
  | cons a t ih =>
    cases t with
    | nil =>
      rw [intercalate_single, words,
        splitOnP_of_all_nonWs isWs a (hchars a (List.mem_cons_self a _))]
      have ha := hne a (List.mem_cons_self a _)
      simp [List.filter, List.length_pos.mpr ha]
    | cons b t2 =>
      rw [intercalate_cons_cons, List.append_assoc, List.singleton_append, words,
        splitOnP_append_sep isWs a _ sep (hchars a (List.mem_cons_self a _)) hsep]
      have ha := hne a (List.mem_cons_self a _)
      rw [List.filter_cons, if_pos (by simp [List.length_pos.mpr ha])]
      have ihr := ih (fun w hw => hne w (List.mem_cons_of_mem a hw))
        (fun w hw => hchars w (List.mem_cons_of_mem a hw))
      rw [words] at ihr
      rw [ihr]

/-- Idempotence: re-tokenizing the single-space-joined tokenization gives the
same token sequence. -/
theorem words_idem (isWs : Char → Bool) (hsp : isWs ' ' = true) (l : List Char) :
    words isWs (List.intercalate [' '] (words isWs l)) = words isWs l :=
  words_intercalate isWs ' ' hsp (words isWs l) (words_no_empty isWs l) (words_chars isWs l)

/-- An in-flight utterance handed to `speechSynthesis.speak` (TTSReader.tsx,
`speakWord`). `index` is the word index being spoken. `cIsPlaying` is the
value of the `isPlaying` React state that the utterance's `onend` closure
captured: the closure reads the `isPlaying` binding of the render in which
`speakWord` was created, not the live state, so the captured value is
recorded with the emission. -/
structure Emission where
  index : Nat
  cIsPlaying : Bool
deriving DecidableEq, Repr

/-- Controller state of `TTSReader` relevant to playback: the two React state
variables `isPlaying` and `currentWordIndex`, the in-flight utterance (if any;
`none` after `speechSynthesis.cancel()` or after its event was delivered), and
a log `emitted` of the word indices handed to `speechSynthesis.speak`, oldest
first, to record which units were actually emitted. -/
structure Ctl where
  isPlaying : Bool
  currentWordIndex : Nat
  pending : Option Emission
  emitted : List Nat
deriving DecidableEq, Repr

/-- Initial state: `useState(false)`, `useState(0)`, no utterance. -/
def initCtl : Ctl := ⟨false, 0, none, []⟩

/-- `speakWord(index)` (TTSReader.tsx lines 81-103), for a word list of length
`numWords`. If `index >= words.length` it sets `isPlaying` to false and
returns; otherwise it creates an utterance for the word and hands it to
`speechSynthesis.speak`. `cIsPlaying` is the `isPlaying` value of the render
closure that `speakWord` (and hence the utterance's `onend` handler) was
created in. -/
def speakWord (numWords : Nat) (cIsPlaying : Bool) (index : Nat) (s : Ctl) : Ctl :=
  if numWords ≤ index then { s with isPlaying := false }
  else { s with pending := some ⟨index, cIsPlaying⟩, emitted := s.emitted ++ [index] }

/-- `handlePlay` (TTSReader.tsx lines 105-108): `setIsPlaying(true)` then
`speakWord(currentWordIndex)`. The `speakWord` being invoked is the one of the
current render, whose closure captured the pre-update `isPlaying` value,
namely `s.isPlaying`. -/
def handlePlay (numWords : Nat) (s : Ctl) : Ctl :=
  speakWord numWords s.isPlaying s.currentWordIndex { s with isPlaying := true }

/-- `handlePause` (TTSReader.tsx lines 110-113): `setIsPlaying(false)` and
`speechSynthesis.cancel()`. Cancelling discards the in-flight utterance: per
the Web Speech API a cancelled utterance fires its `error` event, not `end`,
and the component installs no `onerror` handler, so the cancelled emission can
never deliver a completion. -/
def handlePause (s : Ctl) : Ctl :=
  { s with isPlaying := false, pending := none }

/-- `handleStop` (TTSReader.tsx lines 115-119): `setIsPlaying(false)`,
`speechSynthesis.cancel()`, `setCurrentWordIndex(0)`. -/
def handleStop (s : Ctl) : Ctl :=
  { s with isPlaying := false, pending := none, currentWordIndex := 0 }

/-- Delivery of the `end` event of the in-flight utterance (TTSReader.tsx
lines 92-99): `setCurrentWordIndex(index + 1)`, then if the closure-captured
`isPlaying` is true and `index + 1 < words.length` it calls
`speakWord(index + 1)` (same render closure, same captured `isPlaying`), else
`setIsPlaying(false)`. With no in-flight utterance there is no `end` event to
deliver, so the state is unchanged. -/
def onEnd (numWords : Nat) (s : Ctl) : Ctl :=
  match s.pending with
  | none => s
  | some e =>
    let s1 := { s with currentWordIndex := e.index + 1, pending := none }
    if e.cIsPlaying && e.index + 1 < numWords then
      speakWord numWords e.cIsPlaying (e.index + 1) s1
    else
      { s1 with isPlaying := false }

/-- Delivery of the `error` event of the in-flight utterance: the component
installs no `onerror` handler on its utterances, so nothing runs; the
utterance is merely finished. -/
def onError (s : Ctl) : Ctl :=
  { s with pending := none }

/-- `play()` immediately followed by `pause()`. -/
def playThenPause (numWords : Nat) (s : Ctl) : Ctl :=
  handlePause (handlePlay numWords s)

/-- `const progress = (currentWordIndex / words.length) * 100` (TTSReader.tsx
line 146), over the rationals (`i / 0 = 0` stands in for the JS `NaN` of
`0 / 0`, matching the spec's "undefined/0" reading). -/
def progress (i n : Nat) : ℚ :=
  ((i : ℚ) / (n : ℚ)) * 100

/-- The spec-level progress ratio is the code's percentage scaled back down. -/
def fractionDone (i n : Nat) : ℚ :=
  progress i n / 100

/-- Guest bookmark record (`BookmarkItem` of the guest-storage hook). The
random UUID `id` and the `updated_at` timestamp are environment-supplied
values, modelled as plain numbers. -/
structure BookmarkItem where
  id : Nat
  history_id : String
  position : Nat
  total_words : Nat
  updated_at : Nat
deriving DecidableEq, Repr

/-- `saveBookmark(historyId, position, totalWords)` of the guest-storage hook:
`findIndex` locates the first bookmark with this `history_id`; if found it is
replaced in place by a copy with the new `position`, `total_words` and
`updated_at` (keeping its `id`), otherwise a fresh bookmark (with
environment-supplied `newId` and timestamp `now`) is appended at the end. -/
def saveBookmark (historyId : String) (pos totalWords newId now : Nat) :
    List BookmarkItem → List BookmarkItem
  | [] => [⟨newId, historyId, pos, totalWords, now⟩]
  | b :: bs =>
    if b.history_id = historyId then
      { b with position := pos, total_words := totalWords, updated_at := now } :: bs
    else
      b :: saveBookmark historyId pos totalWords newId now bs

/-- Arguments of one `saveBookmark` call for a fixed `history_id`:
position, total word count, and the environment-supplied fresh id and
timestamp for the case where a new record is created. -/
structure SaveArgs where
  pos : Nat
  totalWords : Nat
  newId : Nat
  now : Nat
deriving DecidableEq, Repr

/-- A sequence of `saveBookmark` calls for the same `history_id`, oldest
first. -/
def applySaves (historyId : String) (saves : List SaveArgs) (bs : List BookmarkItem) :
    List BookmarkItem :=
  saves.foldl (fun acc a => saveBookmark historyId a.pos a.totalWords a.newId a.now acc) bs

/-- Guest history record (`ReadingHistoryItem` of the guest-storage hook);
`id` and the `read_at` timestamp are environment-supplied. -/
structure HistoryItem where
  id : Nat
  title : String
  source_type : String
  source_url : Option String
  content_preview : String
  read_at : Nat
deriving DecidableEq, Repr

/-- `addToHistory(item)` of the guest-storage hook:
`[newItem, ...guestHistory].slice(0, 50)` — prepend the new record and keep
the first 50 entries. -/
def addToHistory (newItem : HistoryItem) (h : List HistoryItem) : List HistoryItem :=
  (newItem :: h).take 50

/-- Outcome of `handleFileUpload` (ContentInput.tsx lines 47-99) on a chosen
file, abstracted to what the handler does before/with the network: reject with
the size-limit toast, reject with the file-type toast, or issue the
`extract-pdf-content` request. -/
inductive UploadOutcome where
  | sizeError
  | typeError
  | extractRequest (fileName : String)
deriving DecidableEq, Repr

/-- `handleFileUpload` (ContentInput.tsx): a file of `size` bytes and MIME
type `mime` is rejected when `file.size > 10 * 1024 * 1024`, then when
`file.type !== "application/pdf"`; only otherwise is the extraction request
issued. -/
def handleFileUpload (size : Nat) (mime fileName : String) : UploadOutcome :=
  if 10 * 1024 * 1024 < size then .sizeError
  else if mime ≠ "application/pdf" then .typeError
  else .extractRequest fileName

/-- Number of stored bookmarks whose `history_id` is `K`. -/
def countKey (K : String) (bs : List BookmarkItem) : Nat :=
  bs.countP (fun b => decide (b.history_id = K))

/-- The first stored bookmark whose `history_id` is `K`, if any. -/
def lookupKey (K : String) (bs : List BookmarkItem) : Option BookmarkItem :=
  bs.find? (fun b => decide (b.history_id = K))

theorem countKey_saveBookmark (K : String) (p t id now : Nat) (bs : List BookmarkItem) :
    countKey K (saveBookmark K p t id now bs) = max (countKey K bs) 1 := by
  induction bs with
  | nil => simp [countKey, saveBookmark]
  | cons b bs ih =>
    by_cases hb : b.history_id = K
    · simp [countKey, saveBookmark, hb, List.countP_cons] at ih ⊢
    · simp [countKey, saveBookmark, hb, List.countP_cons] at ih ⊢
      omega

theorem lookupKey_saveBookmark (K : String) (p t id now : Nat) (bs : List BookmarkItem) :
    ∃ r, lookupKey K (saveBookmark K p t id now bs) = some r ∧
      r.history_id = K ∧ r.position = p ∧ r.total_words = t ∧ r.updated_at = now := by
  induction bs with
  | nil =>
    refine ⟨⟨id, K, p, t, now⟩, ?_, rfl, rfl, rfl, rfl⟩
    simp [lookupKey, saveBookmark, List.find?]
  | cons b bs ih =>
    by_cases hb : b.history_id = K
    · refine ⟨{ b with position := p, total_words := t, updated_at := now }, ?_, hb, rfl, rfl, rfl⟩
      simp [lookupKey, saveBookmark, hb, List.find?]
    · obtain ⟨r, hr, hprops⟩ := ih
      refine ⟨r, ?_, hprops⟩
      simp only [saveBookmark, if_neg hb, lookupKey] at hr ⊢
      rw [List.find?_cons_of_neg _ (by simp [hb]), hr]

theorem countKey_applySaves_le (K : String) (saves : List SaveArgs) (bs : List BookmarkItem)
    (h : countKey K bs ≤ 1) : countKey K (applySaves K saves bs) ≤ 1 := by
  induction saves generalizing bs with
  | nil => exact h
  | cons a saves ih =>
    have : applySaves K (a :: saves) bs =
        applySaves K saves (saveBookmark K a.pos a.totalWords a.newId a.now bs) := rfl
    rw [this]
    exact ih _ (by rw [countKey_saveBookmark]; omega)

/-- C1: after `play()` immediately followed by `pause()` the controller is not
playing, `currentWordIndex` is unchanged, and the in-flight utterance was
cancelled (`pending = none`); once no utterance is in flight, no completion
event exists to deliver, so a completion of the cancelled emission can never
increment the index (`onEnd` is the identity on any state with no pending
utterance). -/
theorem claim_c1_pause_discards_completion (numWords : Nat) (s u : Ctl)
    (hu : u.pending = none) :
    (playThenPause numWords s).isPlaying = false ∧
    (playThenPause numWords s).currentWordIndex = s.currentWordIndex ∧
    (playThenPause numWords s).pending = none ∧
    onEnd numWords u = u := by
  unfold playThenPause handlePause handlePlay speakWord
  split <;> simp [onEnd, hu]

theorem claim_c1_witness :
    (playThenPause 4 initCtl).isPlaying = false ∧
    (playThenPause 4 initCtl).currentWordIndex = initCtl.currentWordIndex ∧
    (playThenPause 4 initCtl).pending = none ∧
    onEnd 4 initCtl = initCtl :=
  claim_c1_pause_discards_completion 4 initCtl initCtl rfl

/-- C2 (evaluation at the failing input): with two words, starting from the
initial state, `play()` emits word 0; when that word's completion signal is
delivered, the handler increments `currentWordIndex` to 1 — but it then stops
playback (`isPlaying = false`) and emits nothing further (`emitted = [0]`, no
pending utterance), because the `onend` closure reads the `isPlaying` value
captured when `play()` ran, which was still `false`. The claim requires the
controller to remain playing and immediately emit word 1. -/
theorem claim_c2_completion_stops_playback :
    (onEnd 2 (handlePlay 2 initCtl)).currentWordIndex = 1 ∧
    (onEnd 2 (handlePlay 2 initCtl)).isPlaying = false ∧
    (onEnd 2 (handlePlay 2 initCtl)).pending = none ∧
    (onEnd 2 (handlePlay 2 initCtl)).emitted = [0] := by
  decide

/-- C3: the tokenizer returns no empty units, maps the empty input to the
empty sequence, and is idempotent under re-joining with single spaces, for any
whitespace class containing the space character. -/
theorem claim_c3_tokenizer (isWs : Char → Bool) (l : List Char) (hsp : isWs ' ' = true) :
    (∀ w ∈ words isWs l, w ≠ []) ∧
    words isWs [] = [] ∧
    words isWs (List.intercalate [' '] (words isWs l)) = words isWs l :=
  ⟨words_no_empty isWs l, words_nil isWs, words_idem isWs hsp l⟩

theorem claim_c3_witness :
    words (fun c => c.isWhitespace)
        (List.intercalate [' '] (words (fun c => c.isWhitespace) "The quick brown fox".toList)) =
      words (fun c => c.isWhitespace) "The quick brown fox".toList :=
  (claim_c3_tokenizer (fun c => c.isWhitespace) "The quick brown fox".toList (by decide)).2.2

/-- C4: `stop()` from any controller state cancels the in-flight emission
(`pending = none`), resets `currentWordIndex` to 0 and leaves the controller
not playing. -/
theorem claim_c4_stop_resets (s : Ctl) :
    (handleStop s).isPlaying = false ∧
    (handleStop s).currentWordIndex = 0 ∧
    (handleStop s).pending = none := by
  simp [handleStop]

/-- C5 (counterexample): with two words, after `play()` emits word 0, an error
event from the speech capability for that word leaves `currentWordIndex` at 0
(not incremented to 1), emits no further word, and produces a state different
from the one a completion signal produces — the code installs no `onerror`
handler, so errors are not treated like completions. -/
theorem claim_c5_counterexample :
    (onError (handlePlay 2 initCtl)).currentWordIndex = 0 ∧
    (onError (handlePlay 2 initCtl)).emitted = [0] ∧
    onError (handlePlay 2 initCtl) ≠ onEnd 2 (handlePlay 2 initCtl) := by
  decide

/-- C5 (amended): an error reported by the speech capability for the current
unit is ignored entirely — no handler is installed, so `currentWordIndex`, the
playing flag and the emission log are all unchanged (in particular no
user-facing failure is surfaced, but playback is not advanced either; it
stalls for that play attempt). -/
theorem claim_c5_error_ignored (s : Ctl) :
    (onError s).currentWordIndex = s.currentWordIndex ∧
    (onError s).isPlaying = s.isPlaying ∧
    (onError s).emitted = s.emitted := by
  simp [onError]

/-- C6: starting from a store with at most one bookmark for key `K`, any
non-empty sequence of `saveBookmark` calls for `K` leaves exactly one bookmark
with key `K`, whose position and total word count are those of the last call
(upsert, last-write-wins). -/
theorem claim_c6_bookmark_upsert (bs : List BookmarkItem) (K : String)
    (pre : List SaveArgs) (a : SaveArgs) (h : countKey K bs ≤ 1) :
    countKey K (applySaves K (pre ++ [a]) bs) = 1 ∧
    ∃ r, lookupKey K (applySaves K (pre ++ [a]) bs) = some r ∧
      r.history_id = K ∧ r.position = a.pos ∧ r.total_words = a.totalWords := by
  have hsplit : applySaves K (pre ++ [a]) bs =
      saveBookmark K a.pos a.totalWords a.newId a.now (applySaves K pre bs) := by
    rw [applySaves, List.foldl_append]
    rfl
  constructor
  · rw [hsplit, countKey_saveBookmark]
    have := countKey_applySaves_le K pre bs h
    omega
  · rw [hsplit]
    obtain ⟨r, hr, h1, h2, h3, _⟩ :=
      lookupKey_saveBookmark K a.pos a.totalWords a.newId a.now (applySaves K pre bs)
    exact ⟨r, hr, h1, h2, h3⟩

theorem claim_c6_witness :
    countKey "abc" (applySaves "abc" ([⟨3, 10, 1, 100⟩] ++ [⟨7, 10, 2, 200⟩]) []) = 1 ∧
    ∃ r, lookupKey "abc" (applySaves "abc" ([⟨3, 10, 1, 100⟩] ++ [⟨7, 10, 2, 200⟩]) []) = some r ∧
      r.history_id = "abc" ∧ r.position = 7 ∧ r.total_words = 10 :=
  claim_c6_bookmark_upsert [] "abc" [⟨3, 10, 1, 100⟩] ⟨7, 10, 2, 200⟩ (by decide)

/-- C7: the progress ratio (the code's percentage scaled back to a fraction)
equals `currentIndex / totalUnits`; it is 0 when `totalUnits = 0` (standing in
for the undefined JS value `0 / 0`); and it is exactly 1 when
`currentIndex = totalUnits > 0`, i.e. in the Finished state. -/
theorem claim_c7_progress_ratio (i n : Nat) (hn : 0 < n) :
    fractionDone i n = (i : ℚ) / (n : ℚ) ∧
    (∀ m : Nat, fractionDone m 0 = 0) ∧
    fractionDone n n = 1 := by
  have hne : (n : ℚ) ≠ 0 := Nat.cast_ne_zero.mpr hn.ne'
  refine ⟨?_, ?_, ?_⟩
  · rw [fractionDone, progress, mul_div_assoc]
    norm_num
  · intro m
    simp [fractionDone, progress]
  · rw [fractionDone, progress, div_self hne, one_mul]
    norm_num

theorem claim_c7_witness : fractionDone 4 4 = 1 :=
  (claim_c7_progress_ratio 4 4 (by norm_num)).2.2

/-- C8: any file strictly larger than `10 * 1024 * 1024` bytes is rejected by
the upload handler with the size-limit error, before the type check and before
any extraction request is issued. -/
theorem claim_c8_oversized_rejected (size : Nat) (mime fileName : String)
    (h : 10 * 1024 * 1024 < size) :
    handleFileUpload size mime fileName = UploadOutcome.sizeError := by
  simp [handleFileUpload, h]

theorem claim_c8_witness :
    handleFileUpload (11 * 1024 * 1024) "application/pdf" "big.pdf" = UploadOutcome.sizeError :=
  claim_c8_oversized_rejected (11 * 1024 * 1024) "application/pdf" "big.pdf" (by norm_num)

/-- C9: adding to the guest history prepends the new record and keeps the
first 50 entries, so the store never exceeds 50 records; every stored record
is either the new one or one of the previous records, unmodified; newest-first
ordering (descending `read_at`) is preserved when the new record is at least
as recent as the existing ones; and when the store is full the evicted record
is exactly the last (oldest) one. -/
theorem claim_c9_history_bounded (x : HistoryItem) (h : List HistoryItem)
    (hsorted : h.Pairwise (fun a b => b.read_at ≤ a.read_at))
    (hnew : ∀ y ∈ h, y.read_at ≤ x.read_at) :
    addToHistory x h = x :: h.take 49 ∧
    (addToHistory x h).length ≤ 50 ∧
    (∀ y ∈ addToHistory x h, y = x ∨ y ∈ h) ∧
    (addToHistory x h).Pairwise (fun a b => b.read_at ≤ a.read_at) ∧
    (h.length = 50 → addToHistory x h = x :: h.dropLast) := by
  refine ⟨rfl, ?_, ?_, ?_, ?_⟩
  · rw [addToHistory, List.length_take]
    omega
  · intro y hy
    exact List.mem_cons.mp (List.take_subset _ _ hy)
  · refine List.Pairwise.sublist (List.take_sublist _ _) ?_
    exact List.pairwise_cons.mpr ⟨hnew, hsorted⟩
  · intro hlen
    rw [List.dropLast_eq_take, hlen]
    rfl

theorem claim_c9_witness :
    addToHistory ⟨1, "b", "url", none, "q", 5⟩ [⟨0, "a", "pdf", none, "p", 3⟩] =
      ⟨1, "b", "url", none, "q", 5⟩ :: List.take 49 [⟨0, "a", "pdf", none, "p", 3⟩] :=
  (claim_c9_history_bounded ⟨1, "b", "url", none, "q", 5⟩ [⟨0, "a", "pdf", none, "p", 3⟩]
    (by decide) (by decide)).1

/-- C10: `play()` with `currentWordIndex >= words.length` (in particular with
an empty word list, or on an already finished session) only clears the playing
flag: the index is unchanged (no restart from 0), nothing is emitted, and no
utterance is put in flight. -/
theorem claim_c10_play_at_end_noop (numWords : Nat) (s : Ctl)
    (h : numWords ≤ s.currentWordIndex) :
    (handlePlay numWords s).isPlaying = false ∧
    (handlePlay numWords s).currentWordIndex = s.currentWordIndex ∧
    (handlePlay numWords s).emitted = s.emitted ∧
    (handlePlay numWords s).pending = s.pending := by
  simp [handlePlay, speakWord, h]

theorem claim_c10_witness :
    (handlePlay 3 ⟨false, 3, none, [0, 1, 2]⟩).isPlaying = false ∧
    (handlePlay 3 ⟨false, 3, none, [0, 1, 2]⟩).currentWordIndex =
      (⟨false, 3, none, [0, 1, 2]⟩ : Ctl).currentWordIndex ∧
    (handlePlay 3 ⟨false, 3, none, [0, 1, 2]⟩).emitted = (⟨false, 3, none, [0, 1, 2]⟩ : Ctl).emitted ∧
    (handlePlay 3 ⟨false, 3, none, [0, 1, 2]⟩).pending = (⟨false, 3, none, [0, 1, 2]⟩ : Ctl).pending :=
  claim_c10_play_at_end_noop 3 ⟨false, 3, none, [0, 1, 2]⟩ (by decide)

end Speakit
